import Mathlib

/-!
Verification of the loan-management core: a shallow embedding of the
application/loan/collateral controllers and models (application controller,
loan controller, Loan model) together with proofs about the lifecycle and
amortization claims.

Conventions of the embedding:
* Monetary values and rates are rationals (`ℚ`); the JavaScript
  `Math.round(x * 100) / 100` becomes `round2`.
* Dates are year/month/day triples (`JsDate`); month is 0-based as in
  JavaScript `Date.getMonth`, and `addMonths` models
  `d.setMonth(d.getMonth() + i)` including the day-overflow normalization
  (valid for day-of-month ≤ 31, which every real `Date` satisfies).
* Mongo documents become structures; a controller action becomes a pure
  function on the affected documents returning `Except` (an error return
  models the controller replying with an error before saving anything, so
  no mutation is committed).
* The JavaScript division `x / 0` produces `NaN`; a computation that can
  produce `NaN` is embedded as an `Option`, with `none` for the `NaN` case.
-/

namespace LoanMgmt

/-- Lien state of a collateral (Collateral model `lienStatus` enum). -/
inductive LienStatus where
  | none
  | marked
  | released
deriving DecidableEq, Repr

/-- Application lifecycle states (LoanApplication model `status` enum). -/
inductive AppStatus where
  | draft
  | submitted
  | under_review
  | approved
  | rejected
  | disbursed
  | closed
deriving DecidableEq, Repr

/-- Loan lifecycle states (Loan model `status` enum). -/
inductive LoanStatus where
  | active
  | overdue
  | closed
  | defaulted
  | restructured
deriving DecidableEq, Repr

/-- EMI line-item states (emiScheduleSchema `status` enum). -/
inductive EmiStatus where
  | pending
  | paid
  | overdue
  | partially_paid
deriving DecidableEq, Repr

/-- Loan closure reasons (Loan model `closureReason` enum). -/
inductive ClosureReason where
  | fully_paid
  | foreclosure
  | defaulted
  | restructured
deriving DecidableEq, Repr

/-- A calendar date as JavaScript stores it: year, 0-based month, day. -/
structure JsDate where
  year : ℕ
  month : ℕ
  day : ℕ
deriving DecidableEq, Repr

/-- Gregorian leap-year rule. -/
def isLeapYear (y : ℕ) : Bool :=
  y % 4 = 0 && (y % 100 != 0 || y % 400 = 0)

/-- Days in a (0-based) month of a given year. -/
def daysInMonth (y m : ℕ) : ℕ :=
  if m = 1 then (if isLeapYear y then 29 else 28)
  else if m = 3 ∨ m = 5 ∨ m = 8 ∨ m = 10 then 30
  else 31

/-- The JavaScript `dueDate.setMonth(dueDate.getMonth() + i)` applied to a
copy of `s`: the month index advances by `i` and a day past the end of the
target month overflows into the following month, exactly as `Date`
normalization does for any real day-of-month (≤ 31). -/
def addMonths (s : JsDate) (i : ℕ) : JsDate :=
  let am := s.year * 12 + s.month + i
  let dim := daysInMonth (am / 12) (am % 12)
  if s.day ≤ dim then ⟨am / 12, am % 12, s.day⟩
  else ⟨(am + 1) / 12, (am + 1) % 12, s.day - dim⟩

/-- Linearization of a date; for days ≤ 31 it orders dates exactly as the
JavaScript timestamp comparison does. -/
def dateKey (d : JsDate) : ℕ :=
  (d.year * 12 + d.month) * 32 + d.day

/-- JavaScript `Math.round(x * 100) / 100`: round to 2 decimals, halves
toward positive infinity (`Math.round x = ⌊x + 1/2⌋`); stated with
`Rat.floor` and `Rat.divInt` so that concrete instances evaluate. -/
def round2 (q : ℚ) : ℚ :=
  Rat.divInt (q * 100 + 1 / 2).floor 100

/-- One line of the EMI schedule (emiScheduleSchema). -/
structure Emi where
  emiNumber : ℕ
  dueDate : JsDate
  principal : ℚ
  interest : ℚ
  totalAmount : ℚ
  status : EmiStatus
  paidAmount : ℚ
  paidDate : Option JsDate
  penaltyAmount : ℚ
  paymentReference : Option String
deriving DecidableEq, Repr

/-- A collateral document (Collateral model), with references as numeric
ids. -/
structure Collateral where
  id : ℕ
  folioNumber : String
  units : ℚ
  navPerUnit : ℚ
  currentValue : ℚ
  lienStatus : LienStatus
  linkedApplication : Option ℕ
  linkedLoan : Option ℕ
  lienMarkedDate : Option JsDate
  lienReleasedDate : Option JsDate
deriving DecidableEq, Repr

/-- A loan document (Loan model). -/
structure Loan where
  id : ℕ
  application : ℕ
  disbursedAmount : ℚ
  outstandingAmount : ℚ
  tenure : ℕ
  interestRate : ℚ
  emiAmount : ℚ
  nextEmiDate : Option JsDate
  collaterals : List ℕ
  totalCollateralValue : ℚ
  currentLTV : ℚ
  status : LoanStatus
  emiSchedule : List Emi
  totalPrincipalPaid : ℚ
  totalInterestPaid : ℚ
  disbursedAt : JsDate
  closedAt : Option JsDate
  closureReason : Option ClosureReason
deriving DecidableEq, Repr

/-- A loan-application document (LoanApplication model); only the fields the
controller logic reads or writes. -/
structure Application where
  id : ℕ
  requestedAmount : ℚ
  approvedAmount : Option ℚ
  tenure : ℕ
  interestRate : ℚ
  collaterals : List ℕ
  totalCollateralValue : ℚ
  ltv : ℚ
  status : AppStatus
  remarks : Option String
  submittedAt : Option JsDate
  approvedAt : Option JsDate
  rejectedAt : Option JsDate
  disbursedAt : Option JsDate
  closedAt : Option JsDate
deriving DecidableEq, Repr

/-- The inner loop of `generateEmiSchedule` (Loan.model.js): at each step the
interest is `balance * monthlyRate`, the (unrounded) principal is
`emi - interest`, the running balance decreases by the unrounded principal,
and the pushed line item carries the 2-decimal-rounded figures and due date
`startDate` plus `i` months. -/
def schedAux (r emi : ℚ) (start : JsDate) : ℚ → ℕ → ℕ → List Emi
  | _, _, 0 => []
  | bal, i, n + 1 =>
    let interest := bal * r
    let principal := emi - interest
    { emiNumber := i
      dueDate := addMonths start i
      principal := round2 principal
      interest := round2 interest
      totalAmount := round2 emi
      status := .pending
      paidAmount := 0
      paidDate := Option.none
      penaltyAmount := 0
      paymentReference := Option.none } ::
    schedAux r emi start (bal - principal) (i + 1) n

/-- `loanSchema.methods.generateEmiSchedule`: monthly rate is
`interestRate / 12 / 100`, the loop runs for `i = 1 .. tenure` starting from
`disbursedAmount`. -/
def generateEmiSchedule (interestRate emiAmount disbursedAmount : ℚ)
    (tenure : ℕ) (disbursedAt : JsDate) : List Emi :=
  schedAux (interestRate / 12 / 100) emiAmount disbursedAt disbursedAmount 1 tenure

/-- The EMI closed formula of `createLoanFromApplication`
(`amount * monthlyRate * (1+r)^tenure / ((1+r)^tenure - 1)`) as a total
rational function (meaningful only when the denominator is nonzero). -/
def emiFormula (amount r : ℚ) (tenure : ℕ) : ℚ :=
  amount * r * (1 + r) ^ tenure / ((1 + r) ^ tenure - 1)

/-- The EMI computation of `createLoanFromApplication` as the code performs
it: when the denominator `(1+r)^tenure - 1` is zero the JavaScript division
evaluates to `0/0 = NaN`, embedded here as `none`. -/
def computeEmi (amount r : ℚ) (tenure : ℕ) : Option ℚ :=
  if (1 + r) ^ tenure - 1 = 0 then Option.none
  else some (emiFormula amount r tenure)

/-- Errors `recordPayment` can reply with before saving anything. -/
inductive PayError where
  | loanClosed
  | emiNotFound
  | alreadyPaid
deriving DecidableEq, Repr

/-- Error of `updateLoanStatus` for a status outside the valid list. -/
inductive LoanStatusError where
  | invalidStatus
deriving DecidableEq, Repr

/-- Errors of `updateApplicationStatus`: the transition-table rejection, and
the failure path of loan creation at disbursal (the `NaN` EMI case, where
`loan.save()` rejects and nothing is persisted). -/
inductive AppError where
  | invalidTransition
  | saveFailed
deriving DecidableEq, Repr

/-- The `recordPayment` EMI mutation: `loan.emiSchedule[emiIndex]` — the
first entry whose `emiNumber` matches — gets `status = paid`, `paidAmount`,
`paidDate` and `paymentReference`; every other entry is untouched. -/
def setPaid (emiNumber : ℕ) (amount : ℚ) (paidDate : JsDate)
    (ref : Option String) : List Emi → List Emi
  | [] => []
  | e :: rest =>
    if e.emiNumber = emiNumber then
      { e with status := .paid, paidAmount := amount, paidDate := some paidDate,
               paymentReference := ref } :: rest
    else e :: setPaid emiNumber amount paidDate ref rest

/-- The `Collateral.updateMany({ linkedLoan: loan._id }, ...)` of
`recordPayment` full-payment closure: every collateral whose `linkedLoan`
matches gets `lienStatus = released`, a release date, and `linkedLoan`
cleared. (`linkedApplication` is not part of the patch.) -/
def releaseByLoan (loanId : ℕ) (now : JsDate) (store : List Collateral) :
    List Collateral :=
  store.map fun c =>
    if c.linkedLoan = some loanId then
      { c with lienStatus := .released, lienReleasedDate := some now,
               linkedLoan := Option.none }
    else c

/-- `exports.recordPayment` (loan.controller.js) on an existing loan: the
guards (closed loan, unknown EMI number, already-paid EMI) reply before any
mutation; otherwise the EMI is marked paid, totals and outstanding move by
the schedule's principal/interest, `nextEmiDate` becomes the first remaining
pending entry's due date, LTV is recomputed when collateral value is
positive, full payment closes the loan and force-releases its collaterals,
and finally the overdue/active status derivation runs. -/
def recordPayment (now : JsDate) (loan : Loan) (store : List Collateral)
    (emiNumber : ℕ) (amount : ℚ) (paymentReference : Option String)
    (paymentDate : Option JsDate) : Except PayError (Loan × List Collateral) :=
  if loan.status = .closed then .error .loanClosed
  else
    match loan.emiSchedule.find? (fun e => decide (e.emiNumber = emiNumber)) with
    | Option.none => .error .emiNotFound
    | some emi =>
      if emi.status = .paid then .error .alreadyPaid
      else
        let sched := setPaid emiNumber amount (paymentDate.getD now)
          paymentReference loan.emiSchedule
        let outstanding := loan.outstandingAmount - emi.principal
        let nextPending := sched.find? (fun e => decide (e.status = .pending))
        let loan1 : Loan :=
          { loan with
            emiSchedule := sched
            totalPrincipalPaid := loan.totalPrincipalPaid + emi.principal
            totalInterestPaid := loan.totalInterestPaid + emi.interest
            outstandingAmount := outstanding
            nextEmiDate := nextPending.map (·.dueDate)
            currentLTV := if 0 < loan.totalCollateralValue then
                outstanding / loan.totalCollateralValue * 100
              else loan.currentLTV }
        let loan2 := if outstanding ≤ 0 ∨ nextPending = Option.none then
            { loan1 with status := .closed, closedAt := some now,
                         closureReason := some .fully_paid }
          else loan1
        let store2 := if outstanding ≤ 0 ∨ nextPending = Option.none then
            releaseByLoan loan.id now store
          else store
        let hasOverdue := sched.any (fun e => decide (e.status = .overdue))
        let loan3 :=
          if hasOverdue = true ∧ loan2.status ≠ .closed then
            { loan2 with status := .overdue }
          else if hasOverdue = false ∧ loan2.status = .overdue then
            { loan2 with status := .active }
          else loan2
        .ok (loan3, store2)

/-- The `validStatuses.includes(status)` check of `updateLoanStatus`,
parsing the request's status string. -/
def statusOfString (s : String) : Option LoanStatus :=
  if s = "active" then some .active
  else if s = "overdue" then some .overdue
  else if s = "closed" then some .closed
  else if s = "defaulted" then some .defaulted
  else if s = "restructured" then some .restructured
  else Option.none

/-- `exports.updateLoanStatus` on an existing loan: the administrative
override sets `status` from any current state, stamps `closedAt` when the
new status is `closed`, and touches nothing else — in particular no
collateral document is modified. -/
def updateLoanStatus (now : JsDate) (loan : Loan) (store : List Collateral)
    (s : String) : Except LoanStatusError (Loan × List Collateral) :=
  match statusOfString s with
  | Option.none => .error .invalidStatus
  | some st =>
    .ok ({ loan with
           status := st
           closedAt := if st = .closed then some now else loan.closedAt }, store)

/-- The per-entry mutation of `markOverdueEmis`: a pending EMI whose due
date is strictly before today becomes overdue. -/
def overdueFlip (today : JsDate) (e : Emi) : Emi :=
  if e.status = .pending ∧ dateKey e.dueDate < dateKey today then
    { e with status := .overdue }
  else e

/-- One loan's pass of `exports.markOverdueEmis`: the Mongo query selects
loans with status in `{active, overdue}` having at least one pending entry;
pending entries past due flip to overdue, and if any entry was updated the
loan's status becomes overdue and the document is saved (otherwise the
stored document is unchanged). -/
def markLoanOverdue (today : JsDate) (l : Loan) : Loan :=
  if (l.status = .active ∨ l.status = .overdue) ∧
      l.emiSchedule.any (fun e => decide (e.status = .pending)) = true then
    if l.emiSchedule.any
        (fun e => decide (e.status = .pending ∧ dateKey e.dueDate < dateKey today)) = true then
      { l with emiSchedule := l.emiSchedule.map (overdueFlip today), status := .overdue }
    else l
  else l

/-- `exports.markOverdueEmis`: the sweep applied to every stored loan. -/
def markOverdueEmis (today : JsDate) (loans : List Loan) : List Loan :=
  loans.map (markLoanOverdue today)

/-- The transition table of `updateApplicationStatus`
(application controller), copied row for row. -/
def validTransitions : AppStatus → List AppStatus
  | .draft => [.submitted]
  | .submitted => [.under_review, .rejected]
  | .under_review => [.approved, .rejected]
  | .approved => [.disbursed, .rejected]
  | .rejected => []
  | .disbursed => [.closed]
  | .closed => []

/-- The `Collateral.updateMany({ _id: { $in: ... } }, { linkedLoan: loan._id })`
at the end of `createLoanFromApplication`: each listed collateral gets
`linkedLoan` set to the new loan. The patch contains only `linkedLoan`:
`linkedApplication` and `lienStatus` are left as they are. -/
def migrateCollateralsToLoan (ids : List ℕ) (loanId : ℕ)
    (store : List Collateral) : List Collateral :=
  store.map fun c =>
    if c.id ∈ ids then { c with linkedLoan := some loanId } else c

/-- The `Collateral.updateMany({ linkedApplication: application._id }, ...)`
of the rejected branch of `updateApplicationStatus`. -/
def releaseByApplication (appId : ℕ) (now : JsDate) (store : List Collateral) :
    List Collateral :=
  store.map fun c =>
    if c.linkedApplication = some appId then
      { c with lienStatus := .released, lienReleasedDate := some now,
               linkedApplication := Option.none }
    else c

/-- `createLoanFromApplication` (application controller): amount is the
approved amount when truthy else the requested amount, the EMI comes from
the closed formula (a `NaN` EMI — the zero-rate case — makes `loan.save()`
fail, embedded as `none`), the schedule is generated, `nextEmiDate` is the
first entry's due date, and the pledged collaterals get `linkedLoan` set. -/
def createLoanFromApplication (now : JsDate) (newLoanId : ℕ)
    (app : Application) (store : List Collateral) :
    Option (Loan × List Collateral) :=
  let amount := match app.approvedAmount with
    | some a => if a = 0 then app.requestedAmount else a
    | Option.none => app.requestedAmount
  let monthlyRate := app.interestRate / 12 / 100
  match computeEmi amount monthlyRate app.tenure with
  | Option.none => Option.none
  | some emi =>
    let sched := generateEmiSchedule app.interestRate (round2 emi) amount
      app.tenure now
    let loan : Loan :=
      { id := newLoanId
        application := app.id
        disbursedAmount := amount
        outstandingAmount := amount
        tenure := app.tenure
        interestRate := app.interestRate
        emiAmount := round2 emi
        nextEmiDate := sched.head?.map (·.dueDate)
        collaterals := app.collaterals
        totalCollateralValue := app.totalCollateralValue
        currentLTV := app.ltv
        status := .active
        emiSchedule := sched
        totalPrincipalPaid := 0
        totalInterestPaid := 0
        disbursedAt := now
        closedAt := Option.none
        closureReason := Option.none }
    some (loan, migrateCollateralsToLoan app.collaterals newLoanId store)

/-- The documents `updateApplicationStatus` can touch: the application, the
collateral store, and the loan collection a disbursal appends to. -/
structure AppState where
  app : Application
  collaterals : List Collateral
  loans : List Loan
deriving DecidableEq, Repr

/-- `exports.updateApplicationStatus`: the transition-table guard replies
with an error before any mutation; an allowed transition updates status and
remarks and runs the per-status branch (timestamps, collateral release on
rejection, loan creation on disbursal). -/
def updateApplicationStatus (now : JsDate) (newLoanId : ℕ) (st : AppState)
    (target : AppStatus) (remarks : Option String) (approvedAmt : Option ℚ) :
    Except AppError AppState :=
  if target ∈ validTransitions st.app.status then
    let app1 := { st.app with
      status := target
      remarks := match remarks with
        | some r => if r = "" then st.app.remarks else some r
        | Option.none => st.app.remarks }
    match target with
    | .submitted => .ok { st with app := { app1 with submittedAt := some now } }
    | .approved =>
        .ok { st with app := { app1 with
          approvedAt := some now
          approvedAmount := some (match approvedAmt with
            | some a => if a = 0 then st.app.requestedAmount else a
            | Option.none => st.app.requestedAmount) } }
    | .rejected =>
        .ok { st with
          app := { app1 with rejectedAt := some now }
          collaterals := releaseByApplication st.app.id now st.collaterals }
    | .disbursed =>
        match createLoanFromApplication now newLoanId
            { app1 with disbursedAt := some now } st.collaterals with
        | Option.none => .error .saveFailed
        | some (loan, store2) =>
            .ok { app := { app1 with disbursedAt := some now },
                  collaterals := store2, loans := st.loans ++ [loan] }
    | .closed => .ok { st with app := { app1 with closedAt := some now } }
    | _ => .ok { st with app := app1 }
  else .error .invalidTransition

/-- The exclusive-pledge invariant, as the specification states it: at most
one of the two links is set; `lienStatus = marked` iff exactly one link is
set; `lienStatus` is `none` or `released` iff no link is set. -/
def collateralInvariant (c : Collateral) : Prop :=
  (c.linkedApplication = Option.none ∨ c.linkedLoan = Option.none) ∧
  (c.lienStatus = .marked ↔
    ((c.linkedApplication ≠ Option.none ∧ c.linkedLoan = Option.none) ∨
     (c.linkedApplication = Option.none ∧ c.linkedLoan ≠ Option.none))) ∧
  ((c.lienStatus = LienStatus.none ∨ c.lienStatus = .released) ↔
    (c.linkedApplication = Option.none ∧ c.linkedLoan = Option.none))

instance (c : Collateral) : Decidable (collateralInvariant c) := by
  unfold collateralInvariant
  exact inferInstance

/-! Concrete sample documents used by the witness instances. -/

/-- A sample date (2024-01-15; month is 0-based). -/
def sampleDate : JsDate := ⟨2024, 0, 15⟩

/-- A collateral as it stands right after being pledged to application 1:
lien marked, application link set, no loan link. -/
def pledgedCollateral : Collateral :=
  { id := 1
    folioNumber := "MF001"
    units := 100
    navPerUnit := 12000
    currentValue := 1200000
    lienStatus := .marked
    linkedApplication := some 1
    linkedLoan := Option.none
    lienMarkedDate := some ⟨2024, 0, 10⟩
    lienReleasedDate := Option.none }

/-- The single pending EMI of `sampleLoan`. -/
def samplePendingEmi : Emi :=
  { emiNumber := 1
    dueDate := ⟨2024, 1, 15⟩
    principal := 100
    interest := 1
    totalAmount := 101
    status := .pending
    paidAmount := 0
    paidDate := Option.none
    penaltyAmount := 0
    paymentReference := Option.none }

/-- A one-installment active loan with its only EMI pending. -/
def sampleLoan : Loan :=
  { id := 7
    application := 1
    disbursedAmount := 100
    outstandingAmount := 100
    tenure := 1
    interestRate := 12
    emiAmount := 101
    nextEmiDate := some ⟨2024, 1, 15⟩
    collaterals := [1]
    totalCollateralValue := 1200000
    currentLTV := 10
    status := .active
    emiSchedule := [samplePendingEmi]
    totalPrincipalPaid := 0
    totalInterestPaid := 0
    disbursedAt := ⟨2024, 0, 15⟩
    closedAt := Option.none
    closureReason := Option.none }

/-- The collateral pledged to `sampleLoan` as disbursal leaves it: both the
application link (never cleared) and the loan link are set. -/
def sampleLoanCollateral : Collateral :=
  { pledgedCollateral with linkedLoan := some 7 }

/-- A draft application over `pledgedCollateral`. -/
def sampleApplication : Application :=
  { id := 1
    requestedAmount := 500000
    approvedAmount := Option.none
    tenure := 24
    interestRate := 12
    collaterals := [1]
    totalCollateralValue := 1200000
    ltv := 500000 / 1200000 * 100
    status := .draft
    remarks := Option.none
    submittedAt := Option.none
    approvedAt := Option.none
    rejectedAt := Option.none
    disbursedAt := Option.none
    closedAt := Option.none }

/-- A state holding `sampleApplication` and its pledged collateral. -/
def sampleAppState : AppState :=
  { app := sampleApplication
    collaterals := [pledgedCollateral]
    loans := [] }

/-!  Claim theorems. -/

/-- C1 (counterexample): the exclusive-pledge invariant does not survive
disbursal. `pledgedCollateral` satisfies the invariant (lien marked, only
the application link set), but the collateral update of
`createLoanFromApplication` — `migrateCollateralsToLoan` — only adds
`linkedLoan` and never clears `linkedApplication`, so afterwards both links
are set and the invariant is violated. -/
theorem migrate_breaks_exclusive_pledge :
    collateralInvariant pledgedCollateral ∧
    migrateCollateralsToLoan [1] 7 [pledgedCollateral] =
      [{ pledgedCollateral with linkedLoan := some 7 }] ∧
    ¬ collateralInvariant { pledgedCollateral with linkedLoan := some 7 } := by
  refine ⟨by decide, rfl, by decide⟩

/-- C1 (amended): what the disbursal collateral update actually does — it
sets `linkedLoan` on the listed collaterals, leaves `linkedApplication`
untouched, and leaves `lienStatus` (marked) untouched; so after disbursal a
pledged collateral carries both links while remaining marked. -/
theorem migrateCollateralsToLoan_only_sets_linkedLoan (ids : List ℕ)
    (loanId : ℕ) (store : List Collateral) :
    (migrateCollateralsToLoan ids loanId store).map (·.linkedApplication) =
      store.map (·.linkedApplication) ∧
    (migrateCollateralsToLoan ids loanId store).map (·.lienStatus) =
      store.map (·.lienStatus) ∧
    (migrateCollateralsToLoan ids loanId store).map (·.linkedLoan) =
      store.map (fun c => if c.id ∈ ids then some loanId else c.linkedLoan) := by
  unfold migrateCollateralsToLoan
  refine ⟨?_, ?_, ?_⟩ <;>
    (rw [List.map_map]; apply List.map_congr_left; intro c _;
     by_cases h : c.id ∈ ids <;> simp [h])

/-- C3: the application status-transition table is enforced exhaustively.
A target outside the table's row for the current status is rejected with
`invalidTransition` (before any mutation, so the stored application is
unchanged), a successful update implies the pair was in the table, and the
table rows are exactly the specified ones (rejected and closed terminal). -/
theorem updateApplicationStatus_transition_table (now : JsDate) (newLoanId : ℕ)
    (st : AppState) (target : AppStatus) (remarks : Option String)
    (amt : Option ℚ) :
    (target ∉ validTransitions st.app.status →
      updateApplicationStatus now newLoanId st target remarks amt =
        .error .invalidTransition) ∧
    (∀ st2, updateApplicationStatus now newLoanId st target remarks amt = .ok st2 →
      target ∈ validTransitions st.app.status) ∧
    validTransitions .draft = [.submitted] ∧
    validTransitions .submitted = [.under_review, .rejected] ∧
    validTransitions .under_review = [.approved, .rejected] ∧
    validTransitions .approved = [.disbursed, .rejected] ∧
    validTransitions .rejected = [] ∧
    validTransitions .disbursed = [.closed] ∧
    validTransitions .closed = [] := by
  refine ⟨?_, ?_, rfl, rfl, rfl, rfl, rfl, rfl, rfl⟩
  · intro h
    simp only [updateApplicationStatus, if_neg h]
  · intro st2 hok
    by_contra hmem
    simp only [updateApplicationStatus, if_neg hmem] at hok
    exact Except.noConfusion hok

/-- C3 (witness): a draft application cannot jump straight to approved —
the self-check of the table at a concrete state. -/
theorem updateApplicationStatus_transition_table_witness :
    updateApplicationStatus sampleDate 0 sampleAppState .approved Option.none
      Option.none = .error .invalidTransition :=
  (updateApplicationStatus_transition_table sampleDate 0 sampleAppState
    .approved Option.none Option.none).1 (by decide)

/-- C6: with a zero interest rate the disbursal EMI computation is NOT
well-defined: the monthly rate is `0 / 12 / 100 = 0`, the denominator
`(1+0)^tenure - 1` is `0`, and the JavaScript division yields `NaN`
(embedded as `none`) instead of the specified `principal / tenure`. -/
theorem computeEmi_zero_rate_nan :
    computeEmi 120000 (0 / 12 / 100) 12 = Option.none := by
  with_unfolding_all decide

/-- C7: recording a payment against an EMI already marked paid fails with
`alreadyPaid`; the guard fires before any field of the loan, its schedule,
or any collateral is written, so nothing is saved. -/
theorem recordPayment_already_paid (now : JsDate) (loan : Loan)
    (store : List Collateral) (emiNumber : ℕ) (amount : ℚ)
    (ref : Option String) (pd : Option JsDate) (emi : Emi)
    (h1 : loan.status ≠ .closed)
    (h2 : loan.emiSchedule.find? (fun e => decide (e.emiNumber = emiNumber)) =
      some emi)
    (h3 : emi.status = .paid) :
    recordPayment now loan store emiNumber amount ref pd = .error .alreadyPaid := by
  simp only [recordPayment, if_neg h1, h2, if_pos h3]

/-- The EMI of `sampleLoan` after it has been paid once. -/
def samplePaidEmi : Emi :=
  { emiNumber := 1
    dueDate := ⟨2024, 1, 15⟩
    principal := 100
    interest := 1
    totalAmount := 101
    status := .paid
    paidAmount := 101
    paidDate := some ⟨2024, 1, 10⟩
    penaltyAmount := 0
    paymentReference := some "UTR1"
  }

/-- C7 (witness): a concrete already-paid EMI is rejected. -/
theorem recordPayment_already_paid_witness :
    recordPayment sampleDate { sampleLoan with emiSchedule := [samplePaidEmi] }
      [sampleLoanCollateral] 1 101 Option.none Option.none =
      .error .alreadyPaid :=
  recordPayment_already_paid sampleDate
    { sampleLoan with emiSchedule := [samplePaidEmi] }
    [sampleLoanCollateral] 1 101 Option.none Option.none samplePaidEmi
    (by decide) rfl (by decide)

/-- C10: the administrative override accepts each of the five loan statuses
from any current status and performs exactly one mutation: `status := st`,
plus `closedAt := now` when the new status is closed. Everything else —
`closureReason`, `outstandingAmount`, the EMI schedule, `nextEmiDate`, the
paid totals, and every collateral document — is returned unchanged. -/
theorem updateLoanStatus_frame (now : JsDate) (loan : Loan)
    (store : List Collateral) (s : String) (st : LoanStatus)
    (h : statusOfString s = some st) :
    updateLoanStatus now loan store s =
      .ok ({ loan with
             status := st
             closedAt := if st = .closed then some now else loan.closedAt },
           store) := by
  simp only [updateLoanStatus, h]

/-- C10 (witness): overriding `sampleLoan` to closed leaves its pledged
collateral marked with the loan link still set, unlike payment closure. -/
theorem updateLoanStatus_frame_witness :
    updateLoanStatus sampleDate sampleLoan [sampleLoanCollateral] "closed" =
      .ok ({ sampleLoan with
             status := .closed
             closedAt := if LoanStatus.closed = .closed then some sampleDate
               else sampleLoan.closedAt },
           [sampleLoanCollateral]) :=
  updateLoanStatus_frame sampleDate sampleLoan [sampleLoanCollateral] "closed"
    .closed (by decide)

/-- After `overdueFlip`, an entry can no longer be pending-and-past-due:
either it was flipped to overdue, or it already failed the condition. -/
theorem overdueFlip_not_flippable (today : JsDate) (e : Emi) :
    decide ((overdueFlip today e).status = .pending ∧
      dateKey (overdueFlip today e).dueDate < dateKey today) = false := by
  unfold overdueFlip
  split
  · simp
  · next h => exact decide_eq_false h

/-- A schedule that has been through the overdue flip has no remaining
pending-and-past-due entry. -/
theorem map_overdueFlip_no_updates (today : JsDate) (l : List Emi) :
    (l.map (overdueFlip today)).any
      (fun e => decide (e.status = .pending ∧ dateKey e.dueDate < dateKey today)) =
      false := by
  rw [List.any_map]
  rw [List.any_eq_false]
  intro e _
  simpa using overdueFlip_not_flippable today e

/-- A loan that just went through the updating branch of the sweep is a
fixed point of the sweep. -/
theorem markLoanOverdue_flipped_fixed (today : JsDate) (l : Loan) :
    markLoanOverdue today
      { l with emiSchedule := l.emiSchedule.map (overdueFlip today),
               status := .overdue } =
      { l with emiSchedule := l.emiSchedule.map (overdueFlip today),
               status := .overdue } := by
  unfold markLoanOverdue
  by_cases h1 : (LoanStatus.overdue = LoanStatus.active ∨
      LoanStatus.overdue = LoanStatus.overdue) ∧
      (l.emiSchedule.map (overdueFlip today)).any
        (fun e => decide (e.status = .pending)) = true
  · rw [if_pos h1, if_neg]
    intro hc
    rw [map_overdueFlip_no_updates today l.emiSchedule] at hc
    exact absurd hc (by decide)
  · rw [if_neg h1]

/-- One loan's sweep pass is idempotent. -/
theorem markLoanOverdue_idem (today : JsDate) (l : Loan) :
    markLoanOverdue today (markLoanOverdue today l) = markLoanOverdue today l := by
  by_cases h1 : (l.status = .active ∨ l.status = .overdue) ∧
      l.emiSchedule.any (fun e => decide (e.status = .pending)) = true
  · by_cases h2 : l.emiSchedule.any
        (fun e => decide (e.status = .pending ∧ dateKey e.dueDate < dateKey today)) = true
    · have hstep : markLoanOverdue today l =
          { l with emiSchedule := l.emiSchedule.map (overdueFlip today),
                   status := .overdue } := by
        unfold markLoanOverdue
        rw [if_pos h1, if_pos h2]
      rw [hstep, markLoanOverdue_flipped_fixed]
    · have hstep : markLoanOverdue today l = l := by
        unfold markLoanOverdue
        rw [if_pos h1, if_neg h2]
      rw [hstep, hstep]
  · have hstep : markLoanOverdue today l = l := by
      unfold markLoanOverdue
      rw [if_neg h1]
    rw [hstep, hstep]

/-- C8: the overdue sweep is idempotent — a second run with the same date
immediately after a first run changes nothing, for every stored loan and
every EMI entry. -/
theorem markOverdueEmis_idempotent (today : JsDate) (loans : List Loan) :
    markOverdueEmis today (markOverdueEmis today loans) =
      markOverdueEmis today loans := by
  unfold markOverdueEmis
  rw [List.map_map]
  apply List.map_congr_left
  intro l _
  simpa [Function.comp] using markLoanOverdue_idem today l

set_option maxRecDepth 4000 in
/-- C2 (counterexample): paying off `sampleLoan` (its only EMI) closes it
with reason fully_paid and releases its collateral, but the release patch
clears only `linkedLoan`: `linkedApplication` of the released collateral is
still `some 1`, so the claim's "both links cleared" is false on this run. -/
theorem recordPayment_closure_keeps_app_link :
    ((recordPayment sampleDate sampleLoan [sampleLoanCollateral] 1 101
        Option.none Option.none).toOption.map (fun p => p.1.status)) =
      some .closed ∧
    ((recordPayment sampleDate sampleLoan [sampleLoanCollateral] 1 101
        Option.none Option.none).toOption.map (fun p => p.1.closureReason)) =
      some (some .fully_paid) ∧
    ((recordPayment sampleDate sampleLoan [sampleLoanCollateral] 1 101
        Option.none Option.none).toOption.map
      (fun p => p.2.map (fun c => c.lienStatus))) = some [LienStatus.released] ∧
    ((recordPayment sampleDate sampleLoan [sampleLoanCollateral] 1 101
        Option.none Option.none).toOption.map
      (fun p => p.2.map (fun c => c.linkedLoan))) = some [Option.none] ∧
    ((recordPayment sampleDate sampleLoan [sampleLoanCollateral] 1 101
        Option.none Option.none).toOption.map
      (fun p => p.2.map (fun c => c.linkedApplication))) = some [some 1] := by
  with_unfolding_all decide

/-- C2 (amended): full payment closes the loan. When the loan is open, the
target EMI exists and is not yet paid, and after the payment the
outstanding amount is ≤ 0 or no pending entry remains, `recordPayment`
returns a loan with status closed, closureReason fully_paid and closedAt
stamped, and every collateral whose `linkedLoan` references the loan gets
`lienStatus = released` with `linkedLoan` cleared — while
`linkedApplication` is left untouched (it is not part of the release
patch). -/
theorem recordPayment_full_payment_closes (now : JsDate) (loan : Loan)
    (store : List Collateral) (emiNumber : ℕ) (amount : ℚ)
    (ref : Option String) (pd : Option JsDate) (emi : Emi)
    (h1 : loan.status ≠ .closed)
    (h2 : loan.emiSchedule.find? (fun e => decide (e.emiNumber = emiNumber)) =
      some emi)
    (h3 : emi.status ≠ .paid)
    (h4 : loan.outstandingAmount - emi.principal ≤ 0 ∨
      (setPaid emiNumber amount (pd.getD now) ref loan.emiSchedule).find?
        (fun e => decide (e.status = .pending)) = Option.none) :
    ∃ loan3,
      recordPayment now loan store emiNumber amount ref pd =
        .ok (loan3, releaseByLoan loan.id now store) ∧
      loan3.status = .closed ∧
      loan3.closureReason = some .fully_paid ∧
      loan3.closedAt = some now ∧
      (releaseByLoan loan.id now store).map
          (fun c => (c.lienStatus, c.linkedLoan, c.linkedApplication)) =
        store.map (fun c =>
          if c.linkedLoan = some loan.id then
            (LienStatus.released, Option.none, c.linkedApplication)
          else (c.lienStatus, c.linkedLoan, c.linkedApplication)) := by
  unfold recordPayment
  rw [if_neg h1, h2]
  dsimp only
  rw [if_neg h3]
  try dsimp only
  simp only [if_pos h4]
  try dsimp only
  rw [if_neg (fun hc => hc.2 rfl), if_neg (fun hc => LoanStatus.noConfusion hc.2)]
  refine ⟨_, rfl, rfl, rfl, rfl, ?_⟩
  unfold releaseByLoan
  rw [List.map_map]
  apply List.map_congr_left
  intro c _
  by_cases h : c.linkedLoan = some loan.id <;> simp [h]

/-- C2 (witness): the closure theorem instantiated on `sampleLoan` and the
collateral that links to it. -/
theorem recordPayment_full_payment_closes_witness :
    ∃ loan3,
      recordPayment sampleDate sampleLoan [sampleLoanCollateral] 1 101
          Option.none Option.none =
        .ok (loan3, releaseByLoan sampleLoan.id sampleDate [sampleLoanCollateral]) ∧
      loan3.status = .closed ∧
      loan3.closureReason = some .fully_paid ∧
      loan3.closedAt = some sampleDate ∧
      (releaseByLoan sampleLoan.id sampleDate [sampleLoanCollateral]).map
          (fun c => (c.lienStatus, c.linkedLoan, c.linkedApplication)) =
        [sampleLoanCollateral].map (fun c =>
          if c.linkedLoan = some sampleLoan.id then
            (LienStatus.released, Option.none, c.linkedApplication)
          else (c.lienStatus, c.linkedLoan, c.linkedApplication)) :=
  recordPayment_full_payment_closes sampleDate sampleLoan [sampleLoanCollateral]
    1 101 Option.none Option.none samplePendingEmi
    (by decide) rfl (by decide) (Or.inl (by with_unfolding_all decide))

/-- Two EMI entries that agree on everything `recordPayment`'s balance and
status logic reads: the status and the due date. -/
def EmiShape (a b : Emi) : Prop :=
  a.status = b.status ∧ a.dueDate = b.dueDate

/-- Marking the same EMI paid with two different amounts produces schedules
that agree entrywise on status and due date. -/
theorem setPaid_shape (n : ℕ) (a1 a2 : ℚ) (t : JsDate) (r : Option String) :
    ∀ l : List Emi,
      List.Forall₂ EmiShape (setPaid n a1 t r l) (setPaid n a2 t r l)
  | [] => List.Forall₂.nil
  | e :: rest => by
    unfold setPaid
    by_cases h : e.emiNumber = n
    · rw [if_pos h, if_pos h]
      exact List.Forall₂.cons ⟨rfl, rfl⟩
        (List.forall₂_same.mpr fun x _ => ⟨rfl, rfl⟩)
    · rw [if_neg h, if_neg h]
      exact List.Forall₂.cons ⟨rfl, rfl⟩ (setPaid_shape n a1 a2 t r rest)

/-- Shape-related schedules find status-matching entries with the same due
date. -/
theorem forall2_find_dueDate (s : EmiStatus) {l1 l2 : List Emi}
    (h : List.Forall₂ EmiShape l1 l2) :
    (l1.find? (fun e => decide (e.status = s))).map (·.dueDate) =
      (l2.find? (fun e => decide (e.status = s))).map (·.dueDate) := by
  induction h with
  | nil => rfl
  | cons hab htail ih =>
    rename_i a b l1' l2'
    have ha : decide (a.status = s) = decide (b.status = s) := by rw [hab.1]
    simp only [List.find?]
    rw [ha]
    cases hd : decide (b.status = s) with
    | true => simp [hab.2]
    | false => exact ih

/-- Shape-related schedules agree on whether a status-matching entry
exists. -/
theorem forall2_find_isNone (s : EmiStatus) {l1 l2 : List Emi}
    (h : List.Forall₂ EmiShape l1 l2) :
    (l1.find? (fun e => decide (e.status = s)) = Option.none ↔
      l2.find? (fun e => decide (e.status = s)) = Option.none) := by
  have hd := forall2_find_dueDate s h
  constructor
  · intro h1
    rw [h1] at hd
    exact Option.map_eq_none'.mp hd.symm
  · intro h2
    rw [h2] at hd
    exact Option.map_eq_none'.mp hd

/-- Shape-related schedules agree on `any` over a status test. -/
theorem forall2_any_status (s : EmiStatus) {l1 l2 : List Emi}
    (h : List.Forall₂ EmiShape l1 l2) :
    l1.any (fun e => decide (e.status = s)) =
      l2.any (fun e => decide (e.status = s)) := by
  induction h with
  | nil => rfl
  | cons hab htail ih =>
    simp only [List.any_cons, hab.1, ih]

/-- The loan fields C9 says must not depend on the paid amount. -/
def loanView (l : Loan) : ℚ × ℚ × ℚ × ℚ × Option JsDate × LoanStatus :=
  (l.outstandingAmount, l.totalPrincipalPaid, l.totalInterestPaid,
   l.currentLTV, l.nextEmiDate, l.status)

/-- C9: the paid amount does not interfere with the balance bookkeeping.
For any two amounts (same EMI, date and reference) the two `recordPayment`
outcomes agree error-for-error, and on success agree on outstandingAmount,
totalPrincipalPaid, totalInterestPaid, currentLTV, nextEmiDate, loan status
and the whole collateral store — the deltas come from the schedule's
principal and interest, never from the amount, which lands only in the
EMI's `paidAmount`. -/
theorem recordPayment_amount_noninterference (now : JsDate) (loan : Loan)
    (store : List Collateral) (emiNumber : ℕ) (a1 a2 : ℚ)
    (ref : Option String) (pd : Option JsDate) :
    (recordPayment now loan store emiNumber a1 ref pd).map
        (fun p => (loanView p.1, p.2)) =
      (recordPayment now loan store emiNumber a2 ref pd).map
        (fun p => (loanView p.1, p.2)) := by
  unfold recordPayment
  by_cases h1 : loan.status = .closed
  · rw [if_pos h1, if_pos h1]
  rw [if_neg h1, if_neg h1]
  cases hfind : loan.emiSchedule.find? (fun e => decide (e.emiNumber = emiNumber)) with
  | none => rfl
  | some emi =>
    dsimp only
    by_cases h3 : emi.status = .paid
    · rw [if_pos h3, if_pos h3]
    rw [if_neg h3, if_neg h3]
    try dsimp only
    have hshape := setPaid_shape emiNumber a1 a2 (pd.getD now) ref loan.emiSchedule
    have hdue := forall2_find_dueDate .pending hshape
    have hnone := forall2_find_isNone .pending hshape
    have hany := forall2_any_status .overdue hshape
    by_cases hclose : loan.outstandingAmount - emi.principal ≤ 0 ∨
        (setPaid emiNumber a1 (pd.getD now) ref loan.emiSchedule).find?
          (fun e => decide (e.status = .pending)) = Option.none
    · have hcloseB : loan.outstandingAmount - emi.principal ≤ 0 ∨
          (setPaid emiNumber a2 (pd.getD now) ref loan.emiSchedule).find?
            (fun e => decide (e.status = .pending)) = Option.none := by
        rcases hclose with h | h
        · exact Or.inl h
        · exact Or.inr (hnone.mp h)
      rw [if_pos hclose, if_pos hclose, if_pos hcloseB, if_pos hcloseB]
      dsimp only
      have hno1A : ¬ ((setPaid emiNumber a1 (pd.getD now) ref
          loan.emiSchedule).any (fun e => decide (e.status = EmiStatus.overdue)) = true ∧
          LoanStatus.closed ≠ LoanStatus.closed) := fun hc => hc.2 rfl
      have hno1B : ¬ ((setPaid emiNumber a2 (pd.getD now) ref
          loan.emiSchedule).any (fun e => decide (e.status = EmiStatus.overdue)) = true ∧
          LoanStatus.closed ≠ LoanStatus.closed) := fun hc => hc.2 rfl
      have hno2A : ¬ ((setPaid emiNumber a1 (pd.getD now) ref
          loan.emiSchedule).any (fun e => decide (e.status = EmiStatus.overdue)) = false ∧
          LoanStatus.closed = LoanStatus.overdue) := fun hc => by cases hc.2
      have hno2B : ¬ ((setPaid emiNumber a2 (pd.getD now) ref
          loan.emiSchedule).any (fun e => decide (e.status = EmiStatus.overdue)) = false ∧
          LoanStatus.closed = LoanStatus.overdue) := fun hc => by cases hc.2
      rw [if_neg hno1A, if_neg hno1B, if_neg hno2A, if_neg hno2B]
      simp only [Except.map, loanView]
      rw [hdue]
    · have hcloseB : ¬ (loan.outstandingAmount - emi.principal ≤ 0 ∨
          (setPaid emiNumber a2 (pd.getD now) ref loan.emiSchedule).find?
            (fun e => decide (e.status = .pending)) = Option.none) := by
        intro hc
        rcases hc with h | h
        · exact hclose (Or.inl h)
        · exact hclose (Or.inr (hnone.mpr h))
      rw [if_neg hclose, if_neg hclose, if_neg hcloseB, if_neg hcloseB]
      dsimp only
      rw [hany]
      by_cases hov1 : (setPaid emiNumber a2 (pd.getD now) ref
          loan.emiSchedule).any (fun e => decide (e.status = .overdue)) = true ∧
          ¬ loan.status = .closed
      · rw [if_pos hov1, if_pos hov1]
        simp only [Except.map, loanView]
        rw [hdue]
      · rw [if_neg hov1, if_neg hov1]
        by_cases hov2 : (setPaid emiNumber a2 (pd.getD now) ref
            loan.emiSchedule).any (fun e => decide (e.status = .overdue)) = false ∧
            loan.status = .overdue
        · rw [if_pos hov2, if_pos hov2]
          simp only [Except.map, loanView]
          rw [hdue]
        · rw [if_neg hov2, if_neg hov2]
          simp only [Except.map, loanView]
          rw [hdue]

/-- Every month has between 28 and 31 days. -/
theorem daysInMonth_bounds (y m : ℕ) :
    28 ≤ daysInMonth y m ∧ daysInMonth y m ≤ 31 := by
  unfold daysInMonth
  split
  · split <;> omega
  · split <;> omega

/-- Calendar-month stepping is strictly monotone in the number of months
added, for any real day-of-month (≤ 31): even when day overflow pushes a
due date into the next month, it lands on day ≤ 3 and stays strictly before
the following installment's due date. -/
theorem addMonths_key_lt (s : JsDate) (hd : s.day ≤ 31) (i : ℕ) :
    dateKey (addMonths s i) < dateKey (addMonths s (i + 1)) := by
  have h1 := daysInMonth_bounds ((s.year * 12 + s.month + i) / 12)
    ((s.year * 12 + s.month + i) % 12)
  have h2 := daysInMonth_bounds ((s.year * 12 + s.month + (i + 1)) / 12)
    ((s.year * 12 + s.month + (i + 1)) % 12)
  unfold addMonths dateKey
  dsimp only
  split <;> split <;> (dsimp only; omega)

/-- The schedule loop produces one entry per remaining installment. -/
theorem schedAux_length (r emi : ℚ) (start : JsDate) :
    ∀ (n : ℕ) (bal : ℚ) (i : ℕ), (schedAux r emi start bal i n).length = n
  | 0, _, _ => rfl
  | n + 1, bal, i => by
    simp [schedAux, schedAux_length r emi start n]

/-- The k-th produced entry carries installment number `i + k` and due date
`start` plus `i + k` months. -/
theorem schedAux_get (r emi : ℚ) (start : JsDate) :
    ∀ (n : ℕ) (bal : ℚ) (i k : ℕ) (h : k < (schedAux r emi start bal i n).length),
      ((schedAux r emi start bal i n).get ⟨k, h⟩).emiNumber = i + k ∧
      ((schedAux r emi start bal i n).get ⟨k, h⟩).dueDate = addMonths start (i + k)
  | 0, bal, i, k, h => by
    rw [schedAux_length] at h
    exact absurd h (Nat.not_lt_zero k)
  | n + 1, bal, i, 0, h => by
    simp [schedAux]
  | n + 1, bal, i, k + 1, h => by
    have ih := schedAux_get r emi start n (bal - (emi - bal * r)) (i + 1) k
      (by
        rw [schedAux_length]
        rw [schedAux_length] at h
        omega)
    simp only [schedAux, List.get_cons_succ]
    refine ⟨?_, ?_⟩
    · rw [ih.1]
      omega
    · rw [ih.2]
      congr 1
      omega

/-- C4: schedule shape. For every tenure `T`, rate, principal and start
date (with a real day-of-month), `generateEmiSchedule` returns exactly `T`
entries, the k-th entry has `emiNumber = k + 1`, its due date is the start
date plus `k + 1` calendar months (the `setMonth` arithmetic of the
source), and the due dates are strictly increasing. -/
theorem generateEmiSchedule_shape (rate emiAmt P : ℚ) (T : ℕ) (start : JsDate)
    (hT : 0 < T) (hrate : 0 < rate) (hday : start.day ≤ 31) :
    (generateEmiSchedule rate emiAmt P T start).length = T ∧
    (∀ k (h : k < (generateEmiSchedule rate emiAmt P T start).length),
      ((generateEmiSchedule rate emiAmt P T start).get ⟨k, h⟩).emiNumber = k + 1 ∧
      ((generateEmiSchedule rate emiAmt P T start).get ⟨k, h⟩).dueDate =
        addMonths start (k + 1)) ∧
    (∀ k (h1 : k < (generateEmiSchedule rate emiAmt P T start).length)
        (h2 : k + 1 < (generateEmiSchedule rate emiAmt P T start).length),
      dateKey (((generateEmiSchedule rate emiAmt P T start).get ⟨k, h1⟩).dueDate) <
        dateKey (((generateEmiSchedule rate emiAmt P T start).get ⟨k + 1, h2⟩).dueDate)) := by
  unfold generateEmiSchedule
  refine ⟨schedAux_length _ _ _ _ _ _, ?_, ?_⟩
  · intro k h
    have hg := schedAux_get (rate / 12 / 100) emiAmt start T P 1 k h
    exact ⟨by rw [hg.1]; omega, by rw [hg.2]; congr 1; omega⟩
  · intro k h1 h2
    have hgk := schedAux_get (rate / 12 / 100) emiAmt start T P 1 k h1
    have hgk1 := schedAux_get (rate / 12 / 100) emiAmt start T P 1 (k + 1) h2
    rw [hgk.2, hgk1.2]
    exact addMonths_key_lt start hday (1 + k)

/-- C4 (witness): a two-installment schedule starting on 2024-01-31 (a day
that overflows February) still has the claimed shape. -/
theorem generateEmiSchedule_shape_witness :
    (generateEmiSchedule 12 860 10000 2 ⟨2024, 0, 31⟩).length = 2 :=
  (generateEmiSchedule_shape 12 860 10000 2 ⟨2024, 0, 31⟩ (by decide)
    (by with_unfolding_all decide) (by decide)).1

/-- The unrounded running balance of the schedule loop after `n` steps:
each step subtracts the unrounded principal `emi - bal * r`. -/
def iterBal (r emi : ℚ) : ℚ → ℕ → ℚ
  | bal, 0 => bal
  | bal, n + 1 => iterBal r emi (bal - (emi - bal * r)) n

/-- `round2` written with the mathematical floor. -/
theorem round2_eq_floor (q : ℚ) :
    round2 q = (⌊q * 100 + 1 / 2⌋ : ℚ) / 100 := by
  rw [round2, Rat.divInt_eq_div, Rat.floor_def, ← Rat.floor_def']
  norm_num

/-- Rounding to 2 decimals moves a value by at most half a cent. -/
theorem round2_abs (q : ℚ) : |round2 q - q| ≤ 1 / 200 := by
  rw [round2_eq_floor]
  have h1 := Int.floor_le (q * 100 + 1 / 2)
  have h2 := Int.lt_floor_add_one (q * 100 + 1 / 2)
  rw [abs_le]
  constructor <;> linarith

/-- The sum of the rounded principal components tracks the telescoped
unrounded principal `bal - iterBal`, within half a cent per entry. -/
theorem schedAux_principal_sum_bound (r emi : ℚ) (start : JsDate) :
    ∀ (n : ℕ) (bal : ℚ) (i : ℕ),
      |((schedAux r emi start bal i n).map (fun e => e.principal)).sum -
        (bal - iterBal r emi bal n)| ≤ (n : ℚ) / 200
  | 0, bal, i => by simp [schedAux, iterBal]
  | n + 1, bal, i => by
    have h1 := round2_abs (emi - bal * r)
    have h2 := schedAux_principal_sum_bound r emi start n (bal - (emi - bal * r))
      (i + 1)
    simp only [schedAux, List.map_cons, List.sum_cons, iterBal]
    have key : round2 (emi - bal * r) +
        ((schedAux r emi start (bal - (emi - bal * r)) (i + 1) n).map
          (fun e => e.principal)).sum -
        (bal - iterBal r emi (bal - (emi - bal * r)) n) =
        (round2 (emi - bal * r) - (emi - bal * r)) +
        (((schedAux r emi start (bal - (emi - bal * r)) (i + 1) n).map
          (fun e => e.principal)).sum -
          ((bal - (emi - bal * r)) - iterBal r emi (bal - (emi - bal * r)) n)) := by
      ring
    rw [key]
    calc |(round2 (emi - bal * r) - (emi - bal * r)) +
          (((schedAux r emi start (bal - (emi - bal * r)) (i + 1) n).map
            (fun e => e.principal)).sum -
            ((bal - (emi - bal * r)) - iterBal r emi (bal - (emi - bal * r)) n))| ≤
        |round2 (emi - bal * r) - (emi - bal * r)| +
          |((schedAux r emi start (bal - (emi - bal * r)) (i + 1) n).map
            (fun e => e.principal)).sum -
            ((bal - (emi - bal * r)) - iterBal r emi (bal - (emi - bal * r)) n)| :=
          abs_add _ _
      _ ≤ 1 / 200 + (n : ℚ) / 200 := add_le_add h1 h2
      _ = ((n : ℕ) + 1 : ℚ) / 200 := by ring
      _ = (((n + 1 : ℕ)) : ℚ) / 200 := by push_cast; ring

/-- Closed form of the running balance: the standard annuity identity. -/
theorem iterBal_closed (r emi : ℚ) (hr : r ≠ 0) :
    ∀ (n : ℕ) (bal : ℚ),
      iterBal r emi bal n = bal * (1 + r) ^ n - emi * ((1 + r) ^ n - 1) / r
  | 0, bal => by simp [iterBal]
  | n + 1, bal => by
    rw [iterBal, iterBal_closed r emi hr n]
    field_simp
    ring

/-- C5 (amended): the tolerance that actually holds. For every principal,
annual rate A > 0 and tenure T > 0, with the EMI computed by the code
(closed formula rounded to 2 decimals) and each installment's interest
`runningBalance * monthlyRate`, the sum of the rounded principal components
differs from the principal by at most
`(T + ((1+r)^T - 1)/r) / 200` currency units (r the monthly rate): half a
cent per installment plus the EMI-rounding error amplified by the annuity
factor. The claimed `T/100` bound is what fails (see the counterexample). -/
theorem generateEmiSchedule_principal_sum_bound (P A : ℚ) (T : ℕ)
    (start : JsDate) (hA : 0 < A) (hT : 0 < T) :
    |((generateEmiSchedule A (round2 (emiFormula P (A / 12 / 100) T)) P T
        start).map (fun e => e.principal)).sum - P| ≤
      ((T : ℚ) + ((1 + A / 12 / 100) ^ T - 1) / (A / 12 / 100)) / 200 := by
  have hr : 0 < A / 12 / 100 := by positivity
  set r : ℚ := A / 12 / 100 with hrdef
  set emi : ℚ := round2 (emiFormula P r T) with hemidef
  have hsum := schedAux_principal_sum_bound r emi start T P 1
  have hpow : (1 : ℚ) < (1 + r) ^ T := by
    have h11 : (1 : ℚ) < 1 + r := by linarith
    exact one_lt_pow h11 hT.ne'
  have hs : 0 < ((1 + r) ^ T - 1) / r := div_pos (by linarith) hr
  have hclosed := iterBal_closed r emi hr.ne' T P
  have hden : ((1 + r) ^ T - 1) ≠ 0 := ne_of_gt (by linarith)
  have hPid : P * (1 + r) ^ T = emiFormula P r T * (((1 + r) ^ T - 1) / r) := by
    rw [emiFormula]
    field_simp [hden, hr.ne']
    ring
  have hemi : |emiFormula P r T - emi| ≤ 1 / 200 := by
    rw [hemidef, abs_sub_comm]
    exact round2_abs _
  have hiterfactor : iterBal r emi P T =
      (((1 + r) ^ T - 1) / r) * (emiFormula P r T - emi) := by
    rw [hclosed, hPid]
    field_simp [hden, hr.ne']
    ring
  have hiter : |iterBal r emi P T| ≤ (((1 + r) ^ T - 1) / r) / 200 := by
    rw [hiterfactor, abs_mul, abs_of_pos hs]
    calc (((1 + r) ^ T - 1) / r) * |emiFormula P r T - emi| ≤
        (((1 + r) ^ T - 1) / r) * (1 / 200) :=
          mul_le_mul_of_nonneg_left hemi hs.le
      _ = (((1 + r) ^ T - 1) / r) / 200 := by ring
  have hb2 : |((schedAux r emi start P 1 T).map (fun e => e.principal)).sum - P| ≤
      (T : ℚ) / 200 + (((1 + r) ^ T - 1) / r) / 200 := by
    set S := ((schedAux r emi start P 1 T).map (fun e => e.principal)).sum with hS
    have heq : S - P = (S - (P - iterBal r emi P T)) + (-(iterBal r emi P T)) := by
      ring
    calc |S - P| = |(S - (P - iterBal r emi P T)) + (-(iterBal r emi P T))| := by
          rw [heq]
      _ ≤ |S - (P - iterBal r emi P T)| + |(-(iterBal r emi P T))| := abs_add _ _
      _ = |S - (P - iterBal r emi P T)| + |iterBal r emi P T| := by rw [abs_neg]
      _ ≤ (T : ℚ) / 200 + (((1 + r) ^ T - 1) / r) / 200 := add_le_add hsum hiter
  unfold generateEmiSchedule
  rw [← hrdef]
  have hsplit : ((T : ℚ) + ((1 + r) ^ T - 1) / r) / 200 =
      (T : ℚ) / 200 + (((1 + r) ^ T - 1) / r) / 200 := by ring
  rw [hsplit]
  exact hb2

/-- C5 (witness of the amended bound): a small concrete schedule satisfies
the proved tolerance. -/
theorem generateEmiSchedule_principal_sum_bound_witness :
    |((generateEmiSchedule 12 (round2 (emiFormula 1000 (12 / 12 / 100) 2)) 1000 2
        sampleDate).map (fun e => e.principal)).sum - 1000| ≤
      (((2 : ℕ) : ℚ) + ((1 + 12 / 12 / 100) ^ 2 - 1) / (12 / 12 / 100)) / 200 :=
  generateEmiSchedule_principal_sum_bound 1000 12 2 sampleDate
    (by with_unfolding_all decide) (by decide)

set_option maxRecDepth 100000 in
/-- C5 (counterexample): the claimed tolerance of one currency unit per 100
installments fails. With principal 500244, annual rate 120 (monthly 10%),
tenure 60, the EMI rounding residue (≈ 0.499 cents) is amplified by the
annuity factor ≈ 3035: the rounded-principal sum overshoots the principal
by exactly 15.15 currency units — far above the claimed 60/100 = 0.6 (and
above one unit under any reading of the tolerance). -/
theorem principal_sum_tolerance_counterexample :
    ¬ (|((generateEmiSchedule 120 (round2 (emiFormula 500244 (120 / 12 / 100) 60))
          500244 60 sampleDate).map (fun e => e.principal)).sum - 500244| ≤
        60 / 100) := by
  with_unfolding_all decide

end LoanMgmt
